import Mathlib

/-!
Shallow embedding of the schema-js core (engine facade, table validator,
insert path, query planner/executor, runtime path resolution), translated
from the Rust sources under `crates/`.  Machine integers of the source
(`u64` ordinals) are modelled as `Nat`; fallible paths return `Except`,
and a Rust `panic!`/`unwrap` failure is modelled as `Option.none` of an
outer `Option`.
-/

namespace SchemaJs

/-- `DataTypes` from `schemajs_primitives::types`: the two column types. -/
inductive DataTypes where
  | string
  | boolean
deriving DecidableEq, Repr

/-- `DataValue` from `schemajs_primitives::column::types`, restricted to the
scalar forms the spec admits (text and boolean). -/
inductive DataValue where
  | strV (s : String)
  | boolV (b : Bool)
deriving DecidableEq, Repr

/-- Modelled from the spec: `DataValue::to_string` (the `schemajs_primitives`
crate is not under `src/`); §4.6 "Values are coerced to text via their
canonical textual form (booleans → "true"/"false", strings → themselves)". -/
def DataValue.toText : DataValue → String
  | .strV s => s
  | .boolV b => if b then "true" else "false"

/-- A `serde_json::Value` as far as the validator inspects it: scalar JSON
values; `is_string` / `is_boolean` discriminate. -/
inductive Json where
  | nullV
  | boolJ (b : Bool)
  | numJ (n : Int)
  | strJ (s : String)
deriving DecidableEq, Repr

def Json.is_string : Json → Bool
  | .strJ _ => true
  | _ => false

def Json.is_boolean : Json → Bool
  | .boolJ _ => true
  | _ => false

/-- A JSON document (object): field name → scalar value, as a finite
association list.  `item.get(name)` of `serde_json` is `Doc.get`. -/
def Doc := List (String × Json)

def Doc.get (item : Doc) (name : String) : Option Json :=
  (List.find? (fun p => p.1 == name) item).map (fun p => p.2)

/-- `Column` from `schemajs_primitives::column` (the fields the validator
reads: data type and required flag; name is the association-list key). -/
structure Column where
  data_type : DataTypes
  required : Bool
deriving DecidableEq, Repr

/-- `ValidationError` from `crates/engine/src/validation_error.rs`. -/
inductive ValidationError where
  | MissingColumn (name : String)
  | ExpectedString (name : String)
  | ExpectedBoolean (name : String)
deriving DecidableEq, Repr

/-- `EngineTable::validate_row_value` (`crates/engine/src/engine_table.rs`):
iterates the declared columns; an absent required column is `MissingColumn`;
an absent non-required column makes the whole validation return `Ok(())`
immediately (the source's `else { return Ok(()); }`); a present value is then
type-checked against the column's data type.  The column map is iterated in
the order of the association list. -/
def validate_row_value (columns : List (String × Column)) (item : Doc) :
    Except ValidationError Unit :=
  match columns with
  | [] => .ok ()
  | (name, column) :: rest =>
    match item.get name with
    | none =>
      if column.required then .error (.MissingColumn name)
      else .ok ()
    | some value =>
      match column.data_type with
      | .string =>
        if !value.is_string then .error (.ExpectedString name)
        else validate_row_value rest item
      | .boolean =>
        if !value.is_boolean then .error (.ExpectedBoolean name)
        else validate_row_value rest item

/-- `InsertionError` from `crates/engine/src/query_error.rs`: an insert fails
by validation or by serialization. -/
inductive InsertionError where
  | ValidationError (e : ValidationError)
  | SerializationError (e : String)
deriving DecidableEq, Repr

/-- The mutable storage state of an `EngineTable`: the primary `MapShard`
records and the temp-shard staging records.  Modelled from the spec:
`MapShard` / `TempMapShard` (the `schemajs_data` crate is not under `src/`)
hold sequences of byte records; `TempMapShard::insert_row(bytes)` appends the
bytes to the active temp shard. -/
structure TableState where
  staged : List (List Nat)
  primary : List (List Nat)
deriving DecidableEq, Repr

/-- `EngineTable::insert_row` (`crates/engine/src/engine_table.rs`): validate,
serialize with the table's serializer, then stage via
`temp_shards.insert_row`.  The serializer is the `Arc<dyn RowSerializer>`
field, here a function parameter; the returned pair is (call result,
resulting storage state). -/
def insert_row (columns : List (String × Column))
    (serializer : Doc → Except String (List Nat))
    (st : TableState) (item : Doc) :
    Except InsertionError Unit × TableState :=
  match validate_row_value columns item with
  | .error e => (.error (.ValidationError e), st)
  | .ok () =>
    match serializer item with
    | .error e => (.error (.SerializationError e), st)
    | .ok val => (.ok (), { st with staged := st.staged ++ [val] })

/-- `Table` from `schemajs_primitives::table`, as the engine facade sees it:
only its name matters to `register_tables`. -/
structure Table where
  name : String
deriving DecidableEq, Repr

/-- `EngineDb` (`crates/engine/src/engine_db.rs`): a named database holding
its registered tables (`query_manager.register_table` appends; modelled from
the spec: "register_tables(db_name, tables): appends tables into the named
database"). -/
structure EngineDb where
  name : String
  tables : List Table
deriving DecidableEq, Repr

/-- `EngineDb::new`: a fresh database with the given name and no tables. -/
def EngineDb.new (name : String) : EngineDb :=
  { name := name, tables := [] }

/-- `EngineDb::add_table`: registers one table. -/
def EngineDb.add_table (db : EngineDb) (table : Table) : EngineDb :=
  { db with tables := db.tables ++ [table] }

/-- `SchemeJsEngine` (`crates/engine/src/engine.rs`): the catalog of
databases. -/
structure SchemeJsEngine where
  databases : List EngineDb
deriving DecidableEq, Repr

/-- `SchemeJsEngine::find_by_name`: first database with the given name. -/
def SchemeJsEngine.find_by_name (e : SchemeJsEngine) (name : String) :
    Option EngineDb :=
  e.databases.find? (fun i => i.name == name)

/-- `SchemeJsEngine::add_database`: pushes `EngineDb::new(name)` onto the
database vector, unconditionally. -/
def SchemeJsEngine.add_database (e : SchemeJsEngine) (name : String) :
    SchemeJsEngine :=
  { e with databases := e.databases ++ [EngineDb.new name] }

/-- Helper for `register_tables`: the source takes a mutable reference to the
first database matching the name and adds every table to it; the rest of the
vector is untouched. -/
def addTablesToFirst (dbs : List EngineDb) (name : String)
    (tables : List Table) : List EngineDb :=
  match dbs with
  | [] => []
  | d :: rest =>
    if d.name == name then { d with tables := d.tables ++ tables } :: rest
    else d :: addTablesToFirst rest name tables

/-- `SchemeJsEngine::register_tables`: `find_by_name(..).unwrap()` then
`add_table` for each loaded table.  The `unwrap` on a missing database is a
panic, modelled as `none`. -/
def SchemeJsEngine.register_tables (e : SchemeJsEngine) (schema_name : String)
    (loaded_tables : List Table) : Option SchemeJsEngine :=
  match e.find_by_name schema_name with
  | none => none
  | some _ => some { e with databases := addTablesToFirst e.databases schema_name loaded_tables }

/-! ## Query planner / executor (`crates/query/src/search/search_manager.rs`) -/

/-- `QueryVal` from `crates/query/src/ops/query_ops.rs`: a leaf condition
`key filter_type value`. -/
structure QueryVal where
  key : String
  filter_type : String
  value : DataValue
deriving DecidableEq, Repr

/-- `QueryOps`: the boolean predicate tree. -/
inductive QueryOps where
  | condition (c : QueryVal)
  | and (ops : List QueryOps)
  | or (ops : List QueryOps)

/-- `Index` from `schemajs_primitives::index`: a named composite of member
column names (the only index type is `Hash`). -/
structure Index where
  name : String
  members : List String
deriving DecidableEq, Repr

/-- `CompositeKey` from `schemajs_index::composite_key`: ordered
(column name, textual value) pairs. -/
def CompositeKey := List (String × String)
deriving DecidableEq, Repr

/-- Modelled from the spec: the hash index manager (`schemajs_index` crate,
not under `src/`) holds a composite-key → ordinal map; `put` is
last-write-wins, `get` returns the single stored ordinal for the key, and
`to_key` is a stable encoding with equal composite keys giving equal bytes,
modelled as the composite key itself.  The map is an association list from
encoded key to ordinal. -/
structure IndexData where
  entries : List (CompositeKey × Nat)
deriving DecidableEq, Repr

/-- Modelled from the spec: the index manager's `get` on an encoded key. -/
def IndexData.get (d : IndexData) (key : CompositeKey) : Option Nat :=
  (d.entries.find? (fun e => e.1 == key)).map (fun e => e.2)

/-- Modelled from the spec: `to_key`, the stable encoding of a composite
key (identity in this model). -/
def IndexData.to_key (_d : IndexData) (key : CompositeKey) : CompositeKey :=
  key

/-- A decoded row, as the executor returns it: a document mapping field
names to data values.  Modelled from the spec (row codec, §4.4): the codec
round-trips every document, so primary-shard records are modelled as the
decoded documents themselves. -/
def RowDoc := List (String × DataValue)
deriving DecidableEq, Repr

/-- A row's field value (`Row::get_value` on the column of that name). -/
def RowDoc.getField (r : RowDoc) (name : String) : Option DataValue :=
  (List.find? (fun p => p.1 == name) r).map (fun p => p.2)

/-- `TableShard` from `crates/query/src/managers/single/table_shard.rs`, the
parts the search manager reads: `tbl.table.indexes` (declared indexes),
`tbl.indexes` (the map index-name → index manager), and `tbl.data` (the
primary `MapShard`, whose `get_element(i)` is position `i` of the record
list). -/
structure TableShard where
  indexes : List Index
  index_managers : List (String × IndexData)
  data : List RowDoc

/-- Lookup in the `tbl.indexes` map (a `CHashMap` keyed by index name). -/
def TableShard.getManager (tbl : TableShard) (name : String) :
    Option IndexData :=
  (tbl.index_managers.find? (fun e => e.1 == name)).map (fun e => e.2)

/-- `QuerySearchManager::intersect_indices`: intersection of two ordinal
vectors through hash sets; modelled as a duplicate-free list. -/
def intersect_indices (a b : List Nat) : List Nat :=
  a.dedup.filter (fun x => b.contains x)

/-- `QuerySearchManager::union_indices`: union of two ordinal vectors through
hash sets; modelled as a duplicate-free list. -/
def union_indices (a b : List Nat) : List Nat :=
  (a ++ b).dedup

/-- `QuerySearchManager::get_index_for_condition`: the first declared index
whose member list is exactly the condition's key. -/
def get_index_for_condition (cond : QueryVal) (indexes : List Index) :
    Option Index :=
  indexes.find? (fun index =>
    match index.members with
    | [m] => m == cond.key
    | _ => false)

/-- `QuerySearchManager::collect_conditions`: all leaf conditions of a tree
with no `Or` node; `none` as soon as an `Or` appears. -/
def collect_conditions : QueryOps → Option (List QueryVal)
  | .condition cond => some [cond]
  | .and ops => collectFromList ops
  | .or _ => none
where
  collectFromList : List QueryOps → Option (List QueryVal)
  | [] => some []
  | op :: rest =>
    match collect_conditions op, collectFromList rest with
    | some child_conditions, some conditions => some (child_conditions ++ conditions)
    | _, _ => none

/-- `QuerySearchManager::find_index_for_conditions`: the first declared index
whose member set contains every condition key (subset test only — coverage of
the index members is not checked here). -/
def find_index_for_conditions (conditions : List QueryVal)
    (indexes : List Index) : Option Index :=
  indexes.find? (fun index =>
    conditions.all (fun cond => index.members.contains cond.key))

/-- `QuerySearchManager::generate_index_key`: one (key, textual value) pair
per index member, in member order; `none` when some member has no
condition. -/
def generate_index_key (index : Index) (conditions : List QueryVal) :
    Option CompositeKey :=
  keyParts index.members conditions
where
  keyParts : List String → List QueryVal → Option CompositeKey
  | [], _ => some []
  | member :: rest, conditions =>
    match conditions.find? (fun c => c.key == member) with
    | some cond =>
      (keyParts rest conditions).map
        (fun parts => (cond.key, cond.value.toText) :: parts)
    | none => none

/-- `QuerySearchManager::find_index_for_query`: collect the conditions, pick
the first subset-matching index, build its composite key; any failure gives
`none`. -/
def find_index_for_query (query : QueryOps) (indexes : List Index) :
    Option (Index × CompositeKey) :=
  match collect_conditions query with
  | none => none
  | some conditions =>
    match find_index_for_conditions conditions indexes with
    | none => none
    | some index =>
      match generate_index_key index conditions with
      | none => none
      | some key => some (index, key)

/-- `QuerySearchManager::evaluate_condition`: non-`=` operators give the
empty set; otherwise look for a single-member index on the key and read the
single stored pointer.  The source `shard.indexes.get(&index.name).unwrap()`
panics when the declared index has no manager: `none` models that panic. -/
def evaluate_condition (shard : TableShard) (cond : QueryVal)
    (indexes : List Index) : Option (List Nat) :=
  if cond.filter_type != "=" then some []
  else
    match get_index_for_condition cond indexes with
    | some index =>
      let comp_key : CompositeKey := [(cond.key, cond.value.toText)]
      match shard.getManager index.name with
      | none => none
      | some indx =>
        let key := indx.to_key comp_key
        match indx.get key with
        | some pointer => some [pointer]
        | none => some []
    | none => some []

mutual

/-- `QuerySearchManager::execute_query`: strategy 1 (whole-query index match)
when `find_index_for_query` succeeds, otherwise per-node recursion.  The
result `none` models a panic inside `evaluate_condition`. -/
def execute_query (tbl : TableShard) (query : QueryOps) :
    Option (List Nat) :=
  match find_index_for_query query tbl.indexes with
  | some index_query =>
    match tbl.getManager index_query.1.name with
    | some manager =>
      let key := manager.to_key index_query.2
      match manager.get key with
      | some pointer => some [pointer]
      | none => some []
    | none => some []
  | none =>
    match query with
    | .condition cond => evaluate_condition tbl cond tbl.indexes
    | .and ops => executeAnd tbl ops none
    | .or ops => executeOr tbl ops []

/-- The `And` loop of `execute_query`: fold the children with
`intersect_indices`, the accumulator starting as the source's
`results : Option<Vec<u64>> = None`. -/
def executeAnd (tbl : TableShard) (ops : List QueryOps)
    (results : Option (List Nat)) : Option (List Nat) :=
  match ops with
  | [] => some (results.getD [])
  | op :: rest =>
    match execute_query tbl op with
    | none => none
    | some res =>
      match results with
      | some existing => executeAnd tbl rest (some (intersect_indices existing res))
      | none => executeAnd tbl rest (some res)

/-- The `Or` loop of `execute_query`: fold the children with
`union_indices`, starting from the empty vector. -/
def executeOr (tbl : TableShard) (ops : List QueryOps)
    (results : List Nat) : Option (List Nat) :=
  match ops with
  | [] => some results
  | op :: rest =>
    match execute_query tbl op with
    | none => none
    | some res => executeOr tbl rest (union_indices results res)

end

/-- `QueryError` from `crates/query/src/errors.rs`, the variant `search`
raises. -/
inductive QueryError where
  | InvalidTable (name : String)
deriving DecidableEq, Repr

/-- The read loop of `QuerySearchManager::search`: for each resolved pointer,
`data.get_element(pointer).unwrap()` then decode; the `unwrap` on an
out-of-range pointer is a panic, modelled as `none`. -/
def readPointers (data : List RowDoc) : List Nat → Option (List RowDoc)
  | [] => some []
  | pointer :: rest =>
    match data.get? pointer with
    | none => none
    | some record =>
      match readPointers data rest with
      | none => none
      | some results => some (record :: results)

/-- `QuerySearchManager::search`: resolve the table shard (else
`InvalidTable`), run `execute_query`, then read every pointer from the
primary shard.  The outer `Option` is `none` exactly when the source
panics. -/
def search (table_shards : List (String × TableShard)) (table_name : String)
    (ops : QueryOps) : Option (Except QueryError (List RowDoc)) :=
  match (table_shards.find? (fun e => e.1 == table_name)).map (fun e => e.2) with
  | none => some (.error (.InvalidTable table_name))
  | some tbl =>
    match execute_query tbl ops with
    | none => none
    | some pointers =>
      match readPointers tbl.data pointers with
      | none => none
      | some results => some (.ok results)

/-! ## Runtime path resolution (`crates/base/src/runtime.rs`) -/

/-- A filesystem path as its list of components (`PathBuf`); `join` with a
relative path appends components. -/
abbrev Path := List String

/-- `PathBuf::parent`: drop the last component; `None` on the empty path. -/
def Path.parent (p : Path) : Option Path :=
  if List.isEmpty p then none else some (List.dropLast p)

/-- The path-resolution prefix of `SchemeJsRuntime::new`: `base_path` is the
current directory joined with `config_path`; a directory keeps itself as the
folder and appends `SchemeJS.toml` as the config file, anything else takes
its parent (falling back to the current directory) as the folder and itself
as the config file.  `is_dir` is the filesystem oracle.  Returns
`(current_folder, config_file)`. -/
def resolve_config (is_dir : Path → Bool) (current_dir : Path)
    (config_path : Path) : Path × Path :=
  let base_path : Path := current_dir ++ config_path
  if is_dir base_path then (base_path, base_path ++ ["SchemeJS.toml"])
  else
    let folder_path :=
      match base_path.parent with
      | some parent => parent
      | none => current_dir
    (folder_path, base_path)

/-! ## Theorems -/

/-- C1: `validate_row_value` on a table whose column map yields the
non-required column `id` before the required Boolean column `enabled`
accepts the empty document — the source returns `Ok(())` for the whole
validation as soon as it meets an absent non-required column, so the
required column is never checked; with the opposite iteration order the
same document is rejected with `MissingColumn("enabled")`.  The claim (the
absence of a non-required column does not exempt the remaining columns)
describes the intended behaviour, which the code's early `return Ok(())`
breaks. -/
theorem validate_accepts_missing_required_after_absent_optional :
    validate_row_value
      [("id", ⟨.string, false⟩), ("enabled", ⟨.boolean, true⟩)] [] = .ok () ∧
    validate_row_value
      [("enabled", ⟨.boolean, true⟩), ("id", ⟨.string, false⟩)] [] =
      .error (.MissingColumn "enabled") ∧
    (⟨DataTypes.boolean, true⟩ : Column).required = true :=
  ⟨rfl, rfl, rfl⟩

/-- C5 counterexample: `add_database` on an engine that already holds a
database named "a" does not leave the database collection unchanged — it
appends a second entry with the same name. -/
theorem add_database_duplicates_existing_name :
    (SchemeJsEngine.find_by_name ⟨[⟨"a", []⟩]⟩ "a" = some ⟨"a", []⟩) ∧
    (SchemeJsEngine.add_database ⟨[⟨"a", []⟩]⟩ "a").databases ≠
      (⟨[⟨"a", []⟩]⟩ : SchemeJsEngine).databases ∧
    (SchemeJsEngine.add_database ⟨[⟨"a", []⟩]⟩ "a").databases =
      [⟨"a", []⟩, ⟨"a", []⟩] := by
  refine ⟨rfl, ?_, rfl⟩
  decide

/-- C5 amended: `add_database` is not idempotent by name — for every engine
state and name it unconditionally appends a fresh empty database entry, so
the number of databases carrying that name grows by one even when one
already exists. -/
theorem add_database_appends_new_entry (e : SchemeJsEngine) (name : String) :
    (e.add_database name).databases = e.databases ++ [EngineDb.new name] ∧
    ((e.add_database name).databases.filter (fun d => d.name == name)).length =
      (e.databases.filter (fun d => d.name == name)).length + 1 := by
  constructor
  · rfl
  · simp [SchemeJsEngine.add_database, EngineDb.new, List.filter_append]

/-- C7: an insert that fails validation or serialization performs no side
effect — `insert_row` returns the corresponding error and the table's
staged and primary data are exactly as before the call. -/
theorem insert_row_failure_no_side_effect (columns : List (String × Column))
    (serializer : Doc → Except String (List Nat)) (st : TableState)
    (item : Doc) :
    (∀ e, validate_row_value columns item = .error e →
      insert_row columns serializer st item = (.error (.ValidationError e), st)) ∧
    (∀ e, validate_row_value columns item = .ok () →
      serializer item = .error e →
      insert_row columns serializer st item =
        (.error (.SerializationError e), st)) := by
  constructor
  · intro e h
    simp [insert_row, h]
  · intro e h1 h2
    simp [insert_row, h1, h2]

/-- C7 witness: a document missing the required column `enabled` is rejected
with no state change, and a serializer failure on a valid document is also
rejected with no state change. -/
theorem insert_row_failure_no_side_effect_witness :
    (validate_row_value [("enabled", ⟨.boolean, true⟩)] [] =
      .error (.MissingColumn "enabled")) ∧
    insert_row [("enabled", ⟨.boolean, true⟩)] (fun _ => .ok []) ⟨[], []⟩ [] =
      (.error (.ValidationError (.MissingColumn "enabled")), ⟨[], []⟩) ∧
    (validate_row_value [("enabled", ⟨.boolean, true⟩)]
      [("enabled", .boolJ true)] = .ok ()) ∧
    insert_row [("enabled", ⟨.boolean, true⟩)] (fun _ => .error "boom") ⟨[], []⟩
      [("enabled", .boolJ true)] =
      (.error (.SerializationError "boom"), ⟨[], []⟩) :=
  ⟨rfl,
   (insert_row_failure_no_side_effect _ _ _ _).1 _ rfl,
   rfl,
   (insert_row_failure_no_side_effect _ _ _ _).2 "boom" rfl rfl⟩

/-- Helper for C9: adding tables to the first database matching a name
rewrites exactly that entry (append of the tables) and preserves the length
of the catalog. -/
theorem addTablesToFirst_find (dbs : List EngineDb) (n : String)
    (ts : List Table) (d : EngineDb)
    (h : dbs.find? (fun i => i.name == n) = some d) :
    (addTablesToFirst dbs n ts).find? (fun i => i.name == n) =
      some ⟨d.name, d.tables ++ ts⟩ ∧
    (addTablesToFirst dbs n ts).length = dbs.length := by
  induction dbs with
  | nil => simp [List.find?] at h
  | cons hd tl ih =>
    by_cases hb : ((fun i : EngineDb => i.name == n) hd) = true
    · rw [List.find?_cons_of_pos (p := fun i : EngineDb => i.name == n) _ hb] at h
      cases h
      simp only [addTablesToFirst, hb, if_pos]
      constructor
      · exact List.find?_cons_of_pos (p := fun i : EngineDb => i.name == n) _ hb
      · simp
    · rw [List.find?_cons_of_neg (p := fun i : EngineDb => i.name == n) _ hb] at h
      have := ih h
      simp only [addTablesToFirst]
      rw [if_neg (by simpa using hb)]
      constructor
      · rw [List.find?_cons_of_neg (p := fun i : EngineDb => i.name == n) _ hb]
        exact this.1
      · simpa using this.2

/-- C9: `register_tables` requires the named database to exist — when no
database carries `schema_name` the source's `unwrap` panics (modelled as
`none`); when one exists, every given table is appended to that database
without failure and the catalog keeps its size. -/
theorem register_tables_spec (e : SchemeJsEngine) (n : String)
    (ts : List Table) :
    (e.find_by_name n = none → e.register_tables n ts = none) ∧
    (∀ d, e.find_by_name n = some d →
      ∃ e2, e.register_tables n ts = some e2 ∧
        e2.find_by_name n = some ⟨d.name, d.tables ++ ts⟩ ∧
        e2.databases.length = e.databases.length) := by
  constructor
  · intro h
    simp [SchemeJsEngine.register_tables, h]
  · intro d h
    refine ⟨⟨addTablesToFirst e.databases n ts⟩, ?_, ?_, ?_⟩
    · simp [SchemeJsEngine.register_tables, h]
    · exact (addTablesToFirst_find e.databases n ts d h).1
    · exact (addTablesToFirst_find e.databases n ts d h).2

/-- C9 witness: on an engine without database "x", `register_tables`
panics; on an engine holding database "x", the table "users" is appended. -/
theorem register_tables_spec_witness :
    (SchemeJsEngine.find_by_name ⟨[]⟩ "x" = none) ∧
    SchemeJsEngine.register_tables ⟨[]⟩ "x" [⟨"users"⟩] = none ∧
    (SchemeJsEngine.find_by_name ⟨[⟨"x", []⟩]⟩ "x" = some ⟨"x", []⟩) ∧
    ∃ e2, SchemeJsEngine.register_tables ⟨[⟨"x", []⟩]⟩ "x" [⟨"users"⟩] =
        some e2 ∧
      e2.find_by_name "x" = some ⟨"x", [⟨"users"⟩]⟩ ∧
      e2.databases.length = (⟨[⟨"x", []⟩]⟩ : SchemeJsEngine).databases.length :=
  ⟨rfl,
   (register_tables_spec ⟨[]⟩ "x" [⟨"users"⟩]).1 rfl,
   rfl,
   (register_tables_spec ⟨[⟨"x", []⟩]⟩ "x" [⟨"users"⟩]).2 ⟨"x", []⟩ rfl⟩

/-- A table shard with one declared single-member hash index on column "a"
whose manager maps the key ("a","v") to ordinal 7. -/
def shardWithIndexOnA : TableShard :=
  { indexes := [⟨"idx_a", ["a"]⟩],
    index_managers := [("idx_a", ⟨[([("a", "v")], 7)]⟩)],
    data := [] }

/-- A table shard with no declared indexes and no data. -/
def shardNoIndexes : TableShard :=
  { indexes := [], index_managers := [], data := [] }

/-- C2 counterexample: a condition with operator "!=" whose key is covered by
a declared index does NOT evaluate to the empty set — the whole-query
index-match path never inspects the operator, builds the composite key as if
the condition were an equality, and returns the stored pointer. -/
theorem strategy_one_ignores_operator :
    (⟨"a", "!=", .strV "v"⟩ : QueryVal).filter_type ≠ "=" ∧
    shardWithIndexOnA.indexes = [⟨"idx_a", ["a"]⟩] ∧
    execute_query shardWithIndexOnA (.condition ⟨"a", "!=", .strV "v"⟩) =
      some [7] ∧
    some [7] ≠ some ([] : List Nat) := by
  refine ⟨by decide, rfl, rfl, by decide⟩

/-- C2 amended: a condition whose operator is not "=" evaluates to the empty
set without error only on the per-node recursion path, i.e. whenever the
whole-query index match (`find_index_for_query`) does not fire for it; when
a declared index covers the condition's key, the operator is ignored and the
condition is executed as an equality lookup. -/
theorem non_eq_condition_empty_without_index_match (tbl : TableShard)
    (cond : QueryVal) (h1 : cond.filter_type ≠ "=")
    (h2 : find_index_for_query (.condition cond) tbl.indexes = none) :
    execute_query tbl (.condition cond) = some [] := by
  rw [execute_query, h2]
  simp [evaluate_condition, h1]

/-- C2 amended witness: on a table with no declared indexes, the "!="
condition evaluates to the empty set. -/
theorem non_eq_condition_empty_without_index_match_witness :
    (("!=" : String) ≠ "=") ∧
    find_index_for_query (.condition ⟨"a", "!=", .strV "v"⟩)
      shardNoIndexes.indexes = none ∧
    execute_query shardNoIndexes (.condition ⟨"a", "!=", .strV "v"⟩) =
      some [] :=
  ⟨by decide, rfl,
   non_eq_condition_empty_without_index_match shardNoIndexes
     ⟨"a", "!=", .strV "v"⟩ (by decide) rfl⟩

/-- Helper for C10: the primary-shard read loop panics as soon as some
resolved pointer has no record in the primary `MapShard`. -/
theorem readPointers_none_of_dangling (data : List RowDoc) (ptrs : List Nat)
    (p : Nat) (hp : p ∈ ptrs) (hmiss : data.get? p = none) :
    readPointers data ptrs = none := by
  induction ptrs with
  | nil => cases hp
  | cons q rest ih =>
    cases hq : data.get? q with
    | none => simp only [readPointers, hq]
    | some r =>
      have hpr : p ∈ rest := by
        rcases List.mem_cons.mp hp with h | h
        · rw [h, hq] at hmiss
          cases hmiss
        · exact h
      simp only [readPointers, hq, ih hpr]

/-- C10: `search` is total only under index coherence — for every pointer the
planner resolves, the primary-shard read is unwrapped, so when an index entry
references an ordinal with no record in the primary `MapShard`, `search`
panics (result `none`) instead of returning an error or skipping the row. -/
theorem search_panics_on_dangling_index_pointer
    (shards : List (String × TableShard)) (name : String) (tbl : TableShard)
    (ops : QueryOps) (ptrs : List Nat) (p : Nat)
    (htbl : (shards.find? (fun e => e.1 == name)).map (fun e => e.2) =
      some tbl)
    (hq : execute_query tbl ops = some ptrs)
    (hp : p ∈ ptrs) (hmiss : tbl.data.get? p = none) :
    search shards name ops = none := by
  simp only [search, htbl, hq,
    readPointers_none_of_dangling tbl.data ptrs p hp hmiss]

/-- A table shard whose index references ordinal 5 while the primary shard
holds no records at all (a row indexed but not yet migrated). -/
def shardDanglingPointer : TableShard :=
  { indexes := [⟨"idx_k", ["k"]⟩],
    index_managers := [("idx_k", ⟨[([("k", "v")], 5)]⟩)],
    data := [] }

/-- C10 witness: the equality lookup resolves ordinal 5, the primary shard is
empty, and `search` panics. -/
theorem search_panics_on_dangling_index_pointer_witness :
    execute_query shardDanglingPointer (.condition ⟨"k", "=", .strV "v"⟩) =
      some [5] ∧
    shardDanglingPointer.data.get? 5 = none ∧
    search [("t", shardDanglingPointer)] "t"
      (.condition ⟨"k", "=", .strV "v"⟩) = none :=
  ⟨rfl, rfl,
   search_panics_on_dangling_index_pointer [("t", shardDanglingPointer)] "t"
     shardDanglingPointer (.condition ⟨"k", "=", .strV "v"⟩) [5] 5 rfl rfl
     (by simp) rfl⟩

/-- C8: runtime construction resolves the configuration path as claimed — a
directory D gives `current_folder = D` and `config_file = D/SchemeJS.toml`;
a non-directory path D/F gives `current_folder = D` and `config_file =
D/F`. -/
theorem resolve_config_spec (is_dir : Path → Bool) (current_dir rel : Path)
    (f : String) :
    (is_dir (current_dir ++ rel) = true →
      resolve_config is_dir current_dir rel =
        (current_dir ++ rel, (current_dir ++ rel) ++ ["SchemeJS.toml"])) ∧
    (is_dir ((current_dir ++ rel) ++ [f]) = false →
      resolve_config is_dir current_dir (rel ++ [f]) =
        (current_dir ++ rel, (current_dir ++ rel) ++ [f])) := by
  constructor
  · intro h
    simp [resolve_config, h]
  · intro h
    have hbase : current_dir ++ (rel ++ [f]) = (current_dir ++ rel) ++ [f] :=
      (List.append_assoc current_dir rel [f]).symm
    simp only [resolve_config, hbase, h]
    rw [if_neg (by simp)]
    simp [Path.parent, List.dropLast_concat]

/-- C8 witness: with a filesystem where only `/root/D` is a directory, the
folder form resolves to `(/root/D, /root/D/SchemeJS.toml)` and the file form
`D/CustomSchemeJS.toml` resolves to `(/root/D, /root/D/CustomSchemeJS.toml)`. -/
theorem resolve_config_spec_witness :
    ((fun p : Path => p == ["root", "D"]) (["root"] ++ ["D"]) = true) ∧
    resolve_config (fun p : Path => p == ["root", "D"]) ["root"] ["D"] =
      (["root", "D"], ["root", "D", "SchemeJS.toml"]) ∧
    ((fun p : Path => p == ["root", "D"])
      ((["root"] ++ ["D"]) ++ ["CustomSchemeJS.toml"]) = false) ∧
    resolve_config (fun p : Path => p == ["root", "D"]) ["root"]
      (["D"] ++ ["CustomSchemeJS.toml"]) =
      (["root", "D"], ["root", "D", "CustomSchemeJS.toml"]) :=
  ⟨by decide,
   (resolve_config_spec (fun p : Path => p == ["root", "D"]) ["root"] ["D"]
     "x").1 (by decide),
   by decide,
   (resolve_config_spec (fun p : Path => p == ["root", "D"]) ["root"] ["D"]
     "CustomSchemeJS.toml").2 (by decide)⟩

/-- A table shard whose only declared index is the composite {a, b}, holding
ordinal 5 under the key (a=1, b=2); no single-member indexes exist. -/
def shardCompositeAB : TableShard :=
  { indexes := [⟨"ab", ["a", "b"]⟩],
    index_managers := [("ab", ⟨[([("a", "1"), ("b", "2")], 5)]⟩)],
    data := [] }

/-- C3 counterexample: with the composite index {a, b}, the whole-query index
match applies to `And[a=1, b=2]` and returns ordinal 5, while each child
condition alone has no single-member index and evaluates to the empty set —
so the ordinal set of the `And` is not the intersection of the children's
ordinal sets. -/
theorem and_query_differs_from_children_intersection :
    execute_query shardCompositeAB
      (.and [.condition ⟨"a", "=", .strV "1"⟩,
             .condition ⟨"b", "=", .strV "2"⟩]) = some [5] ∧
    execute_query shardCompositeAB (.condition ⟨"a", "=", .strV "1"⟩) =
      some [] ∧
    execute_query shardCompositeAB (.condition ⟨"b", "=", .strV "2"⟩) =
      some [] ∧
    intersect_indices [] [] = [] ∧
    some [5] ≠ some ([] : List Nat) :=
  ⟨rfl, rfl, rfl, rfl, by decide⟩

/-- C3 amended: when the whole-query index match does not apply to the
compound node, the executor's set laws hold — the ordinal set of
`And[p, q]` is the intersection of the children's ordinal sets and the
ordinal set of `Or[p, q]` is their union, both duplicate-free; when the
whole-query match does apply to the `And`, the result is the single
composite lookup, which can differ from the children's intersection. -/
theorem and_or_set_laws_without_whole_query_match (tbl : TableShard)
    (p q : QueryOps) (sp sq : List Nat)
    (hp : execute_query tbl p = some sp) (hq : execute_query tbl q = some sq)
    (hand : find_index_for_query (.and [p, q]) tbl.indexes = none) :
    (∃ s, execute_query tbl (.and [p, q]) = some s ∧ s.Nodup ∧
      ∀ x, x ∈ s ↔ (x ∈ sp ∧ x ∈ sq)) ∧
    (∃ s, execute_query tbl (.or [p, q]) = some s ∧ s.Nodup ∧
      ∀ x, x ∈ s ↔ (x ∈ sp ∨ x ∈ sq)) := by
  have hor : find_index_for_query (.or [p, q]) tbl.indexes = none := by
    simp [find_index_for_query, collect_conditions]
  constructor
  · refine ⟨intersect_indices sp sq, ?_, ?_, ?_⟩
    · rw [execute_query, hand]
      simp only [executeAnd, hp, hq, Option.getD]
    · exact (List.nodup_dedup sp).filter _
    · intro x
      simp [intersect_indices, List.mem_filter, List.mem_dedup,
        List.contains, List.elem_iff]
  · refine ⟨union_indices (union_indices [] sp) sq, ?_, ?_, ?_⟩
    · rw [execute_query, hor]
      simp only [executeOr, hp, hq]
    · exact List.nodup_dedup _
    · intro x
      simp [union_indices, List.mem_dedup, List.mem_append]

/-- C3 amended witness: on a table with no indexes, both children evaluate to
the empty set, the whole-query match does not apply, and both set laws
hold. -/
theorem and_or_set_laws_without_whole_query_match_witness :
    execute_query shardNoIndexes (.condition ⟨"a", "=", .strV "1"⟩) =
      some [] ∧
    execute_query shardNoIndexes (.condition ⟨"b", "=", .strV "2"⟩) =
      some [] ∧
    find_index_for_query
      (.and [.condition ⟨"a", "=", .strV "1"⟩,
             .condition ⟨"b", "=", .strV "2"⟩]) shardNoIndexes.indexes =
      none ∧
    ((∃ s, execute_query shardNoIndexes
        (.and [.condition ⟨"a", "=", .strV "1"⟩,
               .condition ⟨"b", "=", .strV "2"⟩]) = some s ∧ s.Nodup ∧
      ∀ x, x ∈ s ↔ (x ∈ ([] : List Nat) ∧ x ∈ ([] : List Nat))) ∧
    (∃ s, execute_query shardNoIndexes
        (.or [.condition ⟨"a", "=", .strV "1"⟩,
              .condition ⟨"b", "=", .strV "2"⟩]) = some s ∧ s.Nodup ∧
      ∀ x, x ∈ s ↔ (x ∈ ([] : List Nat) ∨ x ∈ ([] : List Nat)))) :=
  ⟨rfl, rfl, rfl,
   and_or_set_laws_without_whole_query_match shardNoIndexes _ _ [] []
     rfl rfl rfl⟩

/-- A row with field k = "v" and field n = "0". -/
def rowSharedV0 : RowDoc := [("k", .strV "v"), ("n", .strV "0")]

/-- A row with field k = "v" and field n = "1". -/
def rowSharedV1 : RowDoc := [("k", .strV "v"), ("n", .strV "1")]

/-- A table shard with a single-member hash index on k whose two reconciled
rows share the value "v" for k; the hash index keeps only the latest-written
ordinal (1) for the colliding composite key. -/
def shardSharedValue : TableShard :=
  { indexes := [⟨"idx_k", ["k"]⟩],
    index_managers := [("idx_k", ⟨[([("k", "v")], 1)]⟩)],
    data := [rowSharedV0, rowSharedV1] }

/-- C4 counterexample: both stored rows have field k = "v", but
`search(Condition(k, =, "v"))` returns only the row at the latest-written
ordinal — not all rows whose field k has value "v". -/
theorem single_member_index_returns_only_latest :
    rowSharedV0.getField "k" = some (.strV "v") ∧
    rowSharedV1.getField "k" = some (.strV "v") ∧
    shardSharedValue.data = [rowSharedV0, rowSharedV1] ∧
    search [("t", shardSharedValue)] "t" (.condition ⟨"k", "=", .strV "v"⟩) =
      some (.ok [rowSharedV1]) ∧
    rowSharedV0 ∉ [rowSharedV1] :=
  ⟨rfl, rfl, rfl, rfl, by decide⟩

/-- Helper for C4: on a table whose declared indexes are exactly one
single-member index on k, the whole-query match for an equality condition on
k picks that index with the key [(k, text of v)]. -/
theorem find_index_for_query_single_member (tbl : TableShard)
    (iname k : String) (v : DataValue)
    (hidx : tbl.indexes = [⟨iname, [k]⟩]) :
    find_index_for_query (.condition ⟨k, "=", v⟩) tbl.indexes =
      some (⟨iname, [k]⟩, [(k, v.toText)]) := by
  rw [hidx]
  simp [find_index_for_query, collect_conditions, find_index_for_conditions,
    generate_index_key, generate_index_key.keyParts, List.find?]

/-- C4 amended: on a table with a declared single-member hash index on k,
`search(Condition(k, =, v))` returns exactly the one row stored at the
ordinal the index currently maps the key (k, v) to — the latest-written
ordinal for that composite key; rows sharing the value v at other ordinals
are not returned. -/
theorem condition_search_returns_indexed_row
    (shards : List (String × TableShard)) (name : String) (tbl : TableShard)
    (iname k : String) (v : DataValue) (mgr : IndexData) (p : Nat)
    (r : RowDoc)
    (htbl : (shards.find? (fun e => e.1 == name)).map (fun e => e.2) =
      some tbl)
    (hidx : tbl.indexes = [⟨iname, [k]⟩])
    (hmgr : tbl.getManager iname = some mgr)
    (hget : mgr.get [(k, v.toText)] = some p)
    (hrec : tbl.data.get? p = some r) :
    search shards name (.condition ⟨k, "=", v⟩) = some (.ok [r]) := by
  have hexec : execute_query tbl (.condition ⟨k, "=", v⟩) = some [p] := by
    rw [execute_query, find_index_for_query_single_member tbl iname k v hidx]
    simp only [hmgr, IndexData.to_key, hget]
  simp only [search, htbl, hexec, readPointers, hrec]

/-- C4 amended witness: on the shard where ordinals 0 and 1 both carry
k = "v", the search returns exactly the row at ordinal 1. -/
theorem condition_search_returns_indexed_row_witness :
    (([("t", shardSharedValue)].find? (fun e => e.1 == "t")).map
      (fun e => e.2) = some shardSharedValue) ∧
    shardSharedValue.indexes = [⟨"idx_k", ["k"]⟩] ∧
    shardSharedValue.getManager "idx_k" = some ⟨[([("k", "v")], 1)]⟩ ∧
    IndexData.get ⟨[([("k", "v")], 1)]⟩
      [("k", (DataValue.strV "v").toText)] = some 1 ∧
    shardSharedValue.data.get? 1 = some rowSharedV1 ∧
    search [("t", shardSharedValue)] "t" (.condition ⟨"k", "=", .strV "v"⟩) =
      some (.ok [rowSharedV1]) :=
  ⟨rfl, rfl, rfl, rfl, rfl,
   condition_search_returns_indexed_row [("t", shardSharedValue)] "t"
     shardSharedValue "idx_k" "k" (.strV "v") ⟨[([("k", "v")], 1)]⟩ 1
     rowSharedV1 rfl rfl rfl rfl rfl⟩

/-- The conjunction of equality conditions a = 1 and c = 3. -/
def queryAC : QueryOps :=
  .and [.condition ⟨"a", "=", .strV "1"⟩, .condition ⟨"c", "=", .strV "3"⟩]

/-- A table shard declaring first the index {a, c, d} (a superset of the
condition keys {a, c} but not fully covered by them) and second the index
{a, c} (fully covered, holding ordinal 9 for (a=1, c=3)). -/
def shardFirstSubsetNotCovered : TableShard :=
  { indexes := [⟨"i1", ["a", "c", "d"]⟩, ⟨"i2", ["a", "c"]⟩],
    index_managers := [("i1", ⟨[]⟩), ("i2", ⟨[([("a", "1"), ("c", "3")], 9)]⟩)],
    data := [] }

/-- The same shard with the two index declarations in the opposite order. -/
def shardCoveringFirst : TableShard :=
  { indexes := [⟨"i2", ["a", "c"]⟩, ⟨"i1", ["a", "c", "d"]⟩],
    index_managers := shardFirstSubsetNotCovered.index_managers,
    data := [] }

/-- C6 counterexample: the covering index {a, c} exists, is declared, and
holds ordinal 9 for the query's key, yet the planner picks the first
subset-matching index {a, c, d}, fails to build its key, abandons the
whole-query match and recurses to the empty set; with the declaration order
reversed the same query resolves through the single composite lookup to
ordinal 9 — so the claimed behaviour fails and depends on declaration
order. -/
theorem covering_index_skipped_by_first_subset_match :
    find_index_for_query queryAC shardFirstSubsetNotCovered.indexes = none ∧
    execute_query shardFirstSubsetNotCovered queryAC = some [] ∧
    shardFirstSubsetNotCovered.indexes.get? 1 = some ⟨"i2", ["a", "c"]⟩ ∧
    generate_index_key ⟨"i2", ["a", "c"]⟩
      [⟨"a", "=", .strV "1"⟩, ⟨"c", "=", .strV "3"⟩] =
      some [("a", "1"), ("c", "3")] ∧
    IndexData.get ⟨[([("a", "1"), ("c", "3")], 9)]⟩
      [("a", "1"), ("c", "3")] = some 9 ∧
    shardCoveringFirst.indexes = [⟨"i2", ["a", "c"]⟩, ⟨"i1", ["a", "c", "d"]⟩] ∧
    shardCoveringFirst.index_managers =
      shardFirstSubsetNotCovered.index_managers ∧
    execute_query shardCoveringFirst queryAC = some [9] :=
  ⟨rfl, rfl, rfl, rfl, rfl, rfl, rfl, rfl⟩

/-- Helper for C6: when every index member has a matching condition, the
composite-key construction succeeds. -/
theorem keyParts_total (members : List String) (conds : List QueryVal)
    (hcov : ∀ m ∈ members, ∃ c ∈ conds, c.key = m) :
    ∃ key, generate_index_key.keyParts members conds = some key := by
  induction members with
  | nil => exact ⟨[], rfl⟩
  | cons m rest ih =>
    have hsome : (conds.find? (fun c => c.key == m)).isSome := by
      obtain ⟨c, hc, hck⟩ := hcov m (List.mem_cons_self m rest)
      exact List.find?_isSome.mpr ⟨c, hc, by simp [hck]⟩
    obtain ⟨c0, hc0⟩ := Option.isSome_iff_exists.mp hsome
    obtain ⟨key, hkey⟩ := ih (fun x hx => hcov x (List.mem_cons_of_mem m hx))
    refine ⟨(c0.key, c0.value.toText) :: key, ?_⟩
    simp only [generate_index_key.keyParts, hc0, hkey, Option.map_some']

/-- C6 amended: the whole-query index match is governed by the FIRST declared
index whose members form a superset of the condition keys — whenever the
conditions of an `Or`-free query cover all members of that first
subset-matching index, the key construction succeeds and `execute_query`
resolves the whole query with the single composite-key lookup on that index.
Existence of some other covering index does not suffice, and the outcome
depends on the order in which the table's indexes were declared. -/
theorem first_subset_index_covered_single_lookup (tbl : TableShard)
    (q : QueryOps) (conds : List QueryVal) (index : Index)
    (hc : collect_conditions q = some conds)
    (hf : find_index_for_conditions conds tbl.indexes = some index)
    (hcov : ∀ m ∈ index.members, ∃ c ∈ conds, c.key = m) :
    ∃ key, generate_index_key index conds = some key ∧
      execute_query tbl q =
        some (match tbl.getManager index.name with
          | some manager =>
            match manager.get key with
            | some pointer => [pointer]
            | none => []
          | none => []) := by
  obtain ⟨key, hkey⟩ := keyParts_total index.members conds hcov
  have hgen : generate_index_key index conds = some key := hkey
  refine ⟨key, hgen, ?_⟩
  have hfiq : find_index_for_query q tbl.indexes = some (index, key) := by
    simp only [find_index_for_query, hc, hf, hgen]
  cases q with
  | or ops => simp [collect_conditions] at hc
  | condition c =>
    rw [execute_query, hfiq]
    cases hm : tbl.getManager index.name with
    | none => simp [hm]
    | some manager =>
      cases hg : manager.get key with
      | none => simp [hm, IndexData.to_key, hg]
      | some ptr => simp [hm, IndexData.to_key, hg]
  | and ops =>
    rw [execute_query, hfiq]
    cases hm : tbl.getManager index.name with
    | none => simp [hm]
    | some manager =>
      cases hg : manager.get key with
      | none => simp [hm, IndexData.to_key, hg]
      | some ptr => simp [hm, IndexData.to_key, hg]

/-- C6 amended witness: with the covering index {a, c} declared first, the
conjunction a = 1 ∧ c = 3 resolves through the single composite-key lookup. -/
theorem first_subset_index_covered_single_lookup_witness :
    collect_conditions queryAC =
      some [⟨"a", "=", .strV "1"⟩, ⟨"c", "=", .strV "3"⟩] ∧
    find_index_for_conditions
      [⟨"a", "=", .strV "1"⟩, ⟨"c", "=", .strV "3"⟩]
      shardCoveringFirst.indexes = some ⟨"i2", ["a", "c"]⟩ ∧
    (∀ m ∈ (Index.mk "i2" ["a", "c"]).members,
      ∃ c ∈ [QueryVal.mk "a" "=" (.strV "1"), QueryVal.mk "c" "=" (.strV "3")],
        c.key = m) ∧
    (∃ key, generate_index_key ⟨"i2", ["a", "c"]⟩
        [⟨"a", "=", .strV "1"⟩, ⟨"c", "=", .strV "3"⟩] = some key ∧
      execute_query shardCoveringFirst queryAC =
        some (match shardCoveringFirst.getManager
            (Index.mk "i2" ["a", "c"]).name with
          | some manager =>
            match manager.get key with
            | some pointer => [pointer]
            | none => []
          | none => [])) :=
  ⟨rfl, rfl, by decide,
   first_subset_index_covered_single_lookup shardCoveringFirst queryAC
     [⟨"a", "=", .strV "1"⟩, ⟨"c", "=", .strV "3"⟩] ⟨"i2", ["a", "c"]⟩
     rfl rfl (by decide)⟩

end SchemaJs
